import Mathlib

set_option autoImplicit false
set_option maxRecDepth 10000

/-!
Verification of the zendesk-scripts repository against its specification.

The definitions below are shallow embeddings of the Python source:
* `fetch_request` embeds `http.fetch_request` (identical to
  `delete_old_tickets._fetch_request`), with the sequence of per-attempt
  network outcomes supplied as an oracle `Nat → Attempt`.
* `delete_tickets_batches` / `get_bulk_delete_url` / `delete_tickets` embed
  the bulk-delete driver of `delete_old_tickets.py`.
* `get_all_old_tickets_sorted` embeds the age filter + stable sort of
  `delete_old_tickets.get_all_old_tickets_sorted` (dates at day resolution).
* `find_ticket_walk` / `is_within_24hrs` embed the termination heuristic of
  `find_ticket._find_ticket`.
* `walk_search` / `walk_incremental` embed the two page walkers of
  `delete_old_tickets.py`; `find_visible_walk` embeds
  `find_visible_deleted_tickets._find_tickets`.
-/

namespace Zendesk

/-! ## Configuration constants (`const.py` values assigned in `http.py`) -/

def NUM_HTTP_RETRIES : Nat := 3

def NUM_SEC_SLEEP_DEFAULT : Nat := 60

/-! ## `http.fetch_request`

One loop iteration of `fetch_request` performs `urllib2.urlopen` whose outcome
is one of: a successful response body, an `HTTPError` with a code, a
`URLError` with a reason string, or a socket timeout/error.  The outcome of
the `i`-th attempt is given by an oracle `responses : Nat → Attempt`. -/

inductive Attempt where
  | success (body : String)
  | httpError (code : Nat)
  | urlError (reason : String)
  | socketError
deriving DecidableEq

/-- Observable result of `fetch_request`: the returned value (`none` in the
`result` field means the `MaxTriesExceededError` exception was raised,
`some none` means the function returned `None`, `some (some b)` means it
returned body `b`), together with the number of attempts made and the number
of backoff sleeps performed (`_handle_http_429` and `_handle_generic_http_err`
each sleep exactly once). -/
structure FetchTrace where
  result : Option (Option String)
  attempts : Nat
  sleeps : Nat
deriving DecidableEq

/-- Loop body of `http.fetch_request`: `for _ in range(0, NUM_HTTP_RETRIES + 1)`,
with `fuel` the number of loop iterations remaining, `idx` the index of the
next attempt and `sleeps` the backoff sleeps performed so far.  When the loop
ends without returning, `MaxTriesExceededError` is raised (`result = none`). -/
def fetch_request_go (responses : Nat → Attempt) :
    Nat → Nat → Nat → FetchTrace
  | 0, idx, sleeps => ⟨none, idx, sleeps⟩
  | fuel + 1, idx, sleeps =>
    match responses idx with
    | .success body => ⟨some (some body), idx + 1, sleeps⟩
    | .httpError code =>
      if code = 422 then
        ⟨some none, idx + 1, sleeps⟩
      else if code = 429 then
        fetch_request_go responses fuel (idx + 1) (sleeps + 1)
      else
        fetch_request_go responses fuel (idx + 1) (sleeps + 1)
    | .urlError reason =>
      if reason = "Unprocessable Entity" then
        ⟨some none, idx + 1, sleeps⟩
      else if reason = "Too Many Requests" then
        fetch_request_go responses fuel (idx + 1) (sleeps + 1)
      else
        fetch_request_go responses fuel (idx + 1) (sleeps + 1)
    | .socketError =>
      fetch_request_go responses fuel (idx + 1) (sleeps + 1)

/-- `http.fetch_request`, with the retry budget made an explicit parameter
(the source reads it from `const.NUM_HTTP_RETRIES`). -/
def fetch_request (max_retries : Nat) (responses : Nat → Attempt) : FetchTrace :=
  fetch_request_go responses (max_retries + 1) 0 0

/-- An attempt outcome that makes `fetch_request` sleep and go round the loop
again (everything except a success and the two "no more data" sentinels). -/
def consumes_retry : Attempt → Bool
  | .success _ => false
  | .httpError code => code != 422
  | .urlError reason => reason != "Unprocessable Entity"
  | .socketError => true

theorem fetch_go_retry_step (responses : Nat → Attempt) (fuel idx sleeps : Nat)
    (h : consumes_retry (responses idx) = true) :
    fetch_request_go responses (fuel + 1) idx sleeps
      = fetch_request_go responses fuel (idx + 1) (sleeps + 1) := by
  cases ha : responses idx with
  | success body => simp [consumes_retry, ha] at h
  | httpError code =>
    have hc : ¬ code = 422 := by simpa [consumes_retry, ha] using h
    simp [fetch_request_go, ha, hc]
  | urlError reason =>
    have hr : ¬ reason = "Unprocessable Entity" := by
      simpa [consumes_retry, ha] using h
    simp [fetch_request_go, ha, hr]
  | socketError => simp [fetch_request_go, ha]

theorem fetch_go_422 (responses : Nat → Attempt) (fuel idx sleeps : Nat)
    (h : responses idx = .httpError 422) :
    fetch_request_go responses (fuel + 1) idx sleeps = ⟨some none, idx + 1, sleeps⟩ := by
  simp [fetch_request_go, h]

theorem fetch_go_success (responses : Nat → Attempt) (fuel idx sleeps : Nat)
    (body : String) (h : responses idx = .success body) :
    fetch_request_go responses (fuel + 1) idx sleeps
      = ⟨some (some body), idx + 1, sleeps⟩ := by
  simp [fetch_request_go, h]

theorem fetch_go_exhaust (responses : Nat → Attempt) :
    ∀ (fuel idx sleeps : Nat),
      (∀ j, j < fuel → consumes_retry (responses (idx + j)) = true) →
      fetch_request_go responses fuel idx sleeps = ⟨none, idx + fuel, sleeps + fuel⟩ := by
  intro fuel
  induction fuel with
  | zero => intro idx sleeps _; simp [fetch_request_go]
  | succ n ih =>
    intro idx sleeps h
    rw [fetch_go_retry_step responses n idx sleeps (by simpa using h 0 (Nat.succ_pos n))]
    rw [ih (idx + 1) (sleeps + 1) (fun j hj => by
      have := h (j + 1) (by omega)
      simpa [Nat.add_assoc, Nat.add_comm 1 j] using this)]
    congr 1 <;> omega

theorem fetch_go_sentinel (responses : Nat → Attempt) :
    ∀ (k fuel idx sleeps : Nat), k < fuel →
      (∀ j, j < k → consumes_retry (responses (idx + j)) = true) →
      responses (idx + k) = .httpError 422 →
      fetch_request_go responses fuel idx sleeps
        = ⟨some none, idx + k + 1, sleeps + k⟩ := by
  intro k
  induction k with
  | zero =>
    intro fuel idx sleeps hk _ h422
    obtain ⟨f, rfl⟩ : ∃ f, fuel = f + 1 := ⟨fuel - 1, by omega⟩
    rw [fetch_go_422 responses f idx sleeps (by simpa using h422)]
    congr 1
  | succ n ih =>
    intro fuel idx sleeps hk hprev h422
    obtain ⟨f, rfl⟩ : ∃ f, fuel = f + 1 := ⟨fuel - 1, by omega⟩
    rw [fetch_go_retry_step responses f idx sleeps
      (by simpa using hprev 0 (Nat.succ_pos n))]
    rw [ih f (idx + 1) (sleeps + 1) (by omega)
      (fun j hj => by
        have := hprev (j + 1) (by omega)
        simpa [Nat.add_assoc, Nat.add_comm 1 j] using this)
      (by
        have : idx + 1 + n = idx + (n + 1) := by omega
        rw [this]; exact h422)]
    congr 1 <;> omega

/-- C3: when an attempt inside `fetch_request` yields an HTTP 422 response,
the function returns `None` immediately on that same attempt, with no backoff
sleep and no further attempts consumed; any other HTTP error code is retried
up to the configured maximum before `MaxTriesExceededError` is raised. -/
theorem fetch_request_422_sentinel_spec (max_retries : Nat)
    (responses : Nat → Attempt) :
    (∀ k, k < max_retries + 1 →
      (∀ j, j < k → consumes_retry (responses j) = true) →
      responses k = .httpError 422 →
      fetch_request max_retries responses = ⟨some none, k + 1, k⟩)
  ∧ ((∀ j, j < max_retries + 1 → ∃ c, c ≠ 422 ∧ responses j = .httpError c) →
      fetch_request max_retries responses
        = ⟨none, max_retries + 1, max_retries + 1⟩) := by
  constructor
  · intro k hk hprev h422
    have := fetch_go_sentinel responses k (max_retries + 1) 0 0 hk
      (fun j hj => by simpa using hprev j hj) (by simpa using h422)
    simpa [fetch_request] using this
  · intro hall
    have := fetch_go_exhaust responses (max_retries + 1) 0 0
      (fun j hj => by
        obtain ⟨c, hc, hcj⟩ := hall j hj
        simp [consumes_retry, hcj]
        omega)
    simpa [fetch_request] using this

def c3_responses : Nat → Attempt :=
  fun i => if i = 0 then .httpError 500 else .httpError 422

theorem fetch_request_422_sentinel_witness :
    fetch_request 3 c3_responses = ⟨some none, 2, 1⟩ ∧
    fetch_request 1 (fun _ => Attempt.httpError 503) = ⟨none, 2, 2⟩ := by
  constructor
  · exact (fetch_request_422_sentinel_spec 3 c3_responses).1 1 (by decide)
      (by decide) (by decide)
  · exact (fetch_request_422_sentinel_spec 1 (fun _ => Attempt.httpError 503)).2
      (fun j _ => ⟨503, by decide, rfl⟩)

/-- C4: when every attempt fails without success or 422 sentinel,
`fetch_request` makes exactly `max_retries + 1` attempts (default budget
`NUM_HTTP_RETRIES = 3`, hence 4 attempts) and then raises
`MaxTriesExceededError`; and given the response sequence [429, 429, 200] it
returns the 200 body after exactly two backoff sleeps. -/
theorem fetch_request_budget_spec (max_retries : Nat)
    (responses : Nat → Attempt) :
    ((∀ j, j < max_retries + 1 → consumes_retry (responses j) = true) →
      fetch_request max_retries responses
        = ⟨none, max_retries + 1, max_retries + 1⟩)
  ∧ ((∀ j, j < NUM_HTTP_RETRIES + 1 → consumes_retry (responses j) = true) →
      fetch_request NUM_HTTP_RETRIES responses = ⟨none, 4, 4⟩)
  ∧ (∀ body, responses 0 = .httpError 429 → responses 1 = .httpError 429 →
      responses 2 = .success body → 2 ≤ max_retries →
      fetch_request max_retries responses = ⟨some (some body), 3, 2⟩) := by
  refine ⟨?_, ?_, ?_⟩
  · intro hall
    have := fetch_go_exhaust responses (max_retries + 1) 0 0
      (fun j hj => by simpa using hall j hj)
    simpa [fetch_request] using this
  · intro hall
    have := fetch_go_exhaust responses (NUM_HTTP_RETRIES + 1) 0 0
      (fun j hj => by simpa using hall j hj)
    simpa [fetch_request, NUM_HTTP_RETRIES] using this
  · intro body h0 h1 h2 hmr
    obtain ⟨m, rfl⟩ : ∃ m, max_retries = m + 2 := ⟨max_retries - 2, by omega⟩
    show fetch_request_go responses (m + 2 + 1) 0 0 = ⟨some (some body), 3, 2⟩
    rw [fetch_go_retry_step responses (m + 2) 0 0 (by simp [consumes_retry, h0])]
    rw [fetch_go_retry_step responses (m + 1) 1 1 (by simp [consumes_retry, h1])]
    rw [fetch_go_success responses m 2 2 body h2]

def c4_responses : Nat → Attempt :=
  fun i => if i < 2 then .httpError 429 else .success "OK-BODY"

theorem fetch_request_budget_witness :
    fetch_request NUM_HTTP_RETRIES (fun _ => Attempt.socketError) = ⟨none, 4, 4⟩ ∧
    fetch_request 3 c4_responses = ⟨some (some "OK-BODY"), 3, 2⟩ := by
  constructor
  · exact (fetch_request_budget_spec NUM_HTTP_RETRIES
      (fun _ => Attempt.socketError)).2.1 (fun j _ => rfl)
  · exact (fetch_request_budget_spec 3 c4_responses).2.2 "OK-BODY"
      (by decide) (by decide) (by decide) (by decide)

/-! ## `delete_old_tickets.get_bulk_delete_url` and `delete_old_tickets.delete_tickets`

`delete_tickets` runs `while len(ids) > 0: bulk_ids = ids[:100]; ids = ids[100:]`
and issues one bulk-delete request per batch.  The loop is embedded with an
explicit fuel equal to `ids.length`, which bounds the number of iterations
(each iteration removes at least one id). -/

def get_bulk_delete_url (subdomain : String) (ids : List Nat) : Except String String :=
  if ids.length > 100 then
    Except.error "Too many ticket ids specified in get_bulk_delete_url()."
  else
    Except.ok ("https://" ++ subdomain ++
      ".zendesk.com/api/v2/tickets/destroy_many.json?ids=" ++
      String.intercalate "," (ids.map (fun ticket_id => toString ticket_id)))

def delete_tickets_batches_go : Nat → List Nat → List (List Nat)
  | _, [] => []
  | 0, _ :: _ => []
  | fuel + 1, x :: xs => (x :: xs).take 100 :: delete_tickets_batches_go fuel ((x :: xs).drop 100)

/-- The successive `ids[:100]` slices taken by the `delete_tickets` loop. -/
def delete_tickets_batches (ids : List Nat) : List (List Nat) :=
  delete_tickets_batches_go ids.length ids

/-- The bulk-delete requests issued by `delete_tickets`, in order. -/
def delete_tickets (subdomain : String) (ids : List Nat) : List (Except String String) :=
  (delete_tickets_batches ids).map (fun bulk_ids => get_bulk_delete_url subdomain bulk_ids)

theorem get_bulk_delete_url_ok (subdomain : String) (ids : List Nat)
    (h : ids.length ≤ 100) :
    get_bulk_delete_url subdomain ids
      = .ok ("https://" ++ subdomain ++
          ".zendesk.com/api/v2/tickets/destroy_many.json?ids=" ++
          String.intercalate "," (ids.map (fun ticket_id => toString ticket_id))) := by
  unfold get_bulk_delete_url
  rw [if_neg (by omega)]

theorem delete_tickets_batches_go_spec :
    ∀ (fuel : Nat) (ids : List Nat), ids.length ≤ fuel →
      (delete_tickets_batches_go fuel ids).flatten = ids
    ∧ (delete_tickets_batches_go fuel ids).length = (ids.length + 99) / 100
    ∧ ∀ b ∈ delete_tickets_batches_go fuel ids, b.length ≤ 100 := by
  intro fuel
  induction fuel with
  | zero =>
    intro ids h
    have hids : ids = [] := List.length_eq_zero.mp (by omega)
    subst hids
    exact ⟨rfl, rfl, fun b hb => by simp [delete_tickets_batches_go] at hb⟩
  | succ n ih =>
    intro ids h
    cases ids with
    | nil => exact ⟨rfl, rfl, fun b hb => by simp [delete_tickets_batches_go] at hb⟩
    | cons x xs =>
      have hlen : ((x :: xs).drop 100).length ≤ n := by
        simp only [List.length_drop, List.length_cons]
        simp only [List.length_cons] at h
        omega
      obtain ⟨hjoin, hcount, hbound⟩ := ih ((x :: xs).drop 100) hlen
      have hgo : delete_tickets_batches_go (n + 1) (x :: xs)
          = (x :: xs).take 100 :: delete_tickets_batches_go n ((x :: xs).drop 100) := rfl
      refine ⟨?_, ?_, ?_⟩
      · rw [hgo, List.flatten_cons, hjoin, List.take_append_drop]
      · rw [hgo, List.length_cons, hcount]
        simp only [List.length_drop, List.length_cons]
        omega
      · intro b hb
        rw [hgo, List.mem_cons] at hb
        rcases hb with hb | hb
        · subst hb
          simp [List.length_take]
        · exact hbound b hb

/-- C1: `delete_tickets` partitions its id list into `⌈n/100⌉` consecutive
batches, each of size at most 100, issued in order, whose concatenation is the
original list; 250 ids yield exactly 3 requests with batches of sizes
100, 100, 50 in that order. -/
theorem delete_tickets_batching_spec :
    (∀ ids : List Nat,
        (delete_tickets_batches ids).flatten = ids
      ∧ (delete_tickets_batches ids).length = (ids.length + 99) / 100
      ∧ ∀ b ∈ delete_tickets_batches ids, b.length ≤ 100)
  ∧ (delete_tickets_batches (List.range 250)).map List.length = [100, 100, 50]
  ∧ (delete_tickets "sub" (List.range 250)).length = 3 := by
  refine ⟨fun ids => delete_tickets_batches_go_spec ids.length ids (Nat.le_refl _),
    by decide, by decide⟩

theorem delete_tickets_batching_witness :
    List.range 100 ∈ delete_tickets_batches (List.range 250) ∧
    (List.range 100).length ≤ 100 :=
  ⟨by decide,
    (delete_tickets_batching_spec.1 (List.range 250)).2.2 (List.range 100) (by decide)⟩

/-- C9: `get_bulk_delete_url` fails with `OverflowError` exactly when given
more than 100 ids; for at most 100 ids it returns the bulk-delete URL with the
ids comma-joined in input order, so every batch produced by `delete_tickets`
passes the check. -/
theorem get_bulk_delete_url_spec (subdomain : String) (ids : List Nat) :
    ((∃ e, get_bulk_delete_url subdomain ids = .error e) ↔ 100 < ids.length)
  ∧ (ids.length ≤ 100 →
      get_bulk_delete_url subdomain ids
        = .ok ("https://" ++ subdomain ++
            ".zendesk.com/api/v2/tickets/destroy_many.json?ids=" ++
            String.intercalate "," (ids.map (fun ticket_id => toString ticket_id))))
  ∧ (∀ b ∈ delete_tickets_batches ids, ∃ u, get_bulk_delete_url subdomain b = .ok u) := by
  refine ⟨⟨?_, ?_⟩, fun hlen => get_bulk_delete_url_ok subdomain ids hlen, ?_⟩
  · rintro ⟨e, he⟩
    by_contra hlen
    push_neg at hlen
    rw [get_bulk_delete_url_ok subdomain ids hlen] at he
    exact Except.noConfusion he
  · intro hlen
    refine ⟨"Too many ticket ids specified in get_bulk_delete_url().", ?_⟩
    unfold get_bulk_delete_url
    rw [if_pos (by omega)]
  · intro b hb
    have hble := (delete_tickets_batching_spec.1 ids).2.2 b hb
    exact ⟨_, get_bulk_delete_url_ok subdomain b hble⟩

theorem get_bulk_delete_url_witness :
    (∃ e, get_bulk_delete_url "sub" (List.range 101) = .error e) ∧
    get_bulk_delete_url "sub" [7, 8]
      = .ok "https://sub.zendesk.com/api/v2/tickets/destroy_many.json?ids=7,8" := by
  refine ⟨(get_bulk_delete_url_spec "sub" (List.range 101)).1.mpr (by decide), ?_⟩
  have h := (get_bulk_delete_url_spec "sub" [7, 8]).2.1 (by decide)
  rw [h]
  rfl

/-! ## `delete_old_tickets.get_all_old_tickets_sorted`

Tickets are `(id, created_at)` pairs.  Dates are carried at day resolution as
integers: the source carries `YYYY-MM-DD` strings, whose lexicographic order
(the `sorted` key) coincides with chronological order, and
`_days_since_today` computes `(datetime.today() - strptime(created)).days`,
which at day resolution is exactly `today - created` (the fractional
time-of-day part of `datetime.today()` is below one day and is floored away).
Python's `sorted(old_tickets, key=itemgetter(1))` is a stable sort on the
date component and is embedded as the (stable) `List.mergeSort`. -/

def days_since_today (today created : Int) : Int := today - created

def get_all_old_tickets_sorted (today : Int) (days : Int)
    (tickets : List (Nat × Int)) : List (Nat × Int) :=
  (tickets.filter (fun t => decide (days_since_today today t.2 > days))).mergeSort
    (fun a b => decide (a.2 ≤ b.2))

theorem ticket_le_trans (a b c : Nat × Int) :
    decide (a.2 ≤ b.2) = true → decide (b.2 ≤ c.2) = true →
    decide (a.2 ≤ c.2) = true := by
  simp only [decide_eq_true_eq]
  omega

theorem ticket_le_total (a b : Nat × Int) :
    (decide (a.2 ≤ b.2) || decide (b.2 ≤ a.2)) = true := by
  simp only [Bool.or_eq_true, decide_eq_true_eq]
  omega

/-- C2: `get_all_old_tickets_sorted` keeps a record iff
`(today - created_at).days > min_age_days` (strictly, so a record exactly
`min_age_days` old is excluded), and returns the kept records sorted
ascending by creation date with ties broken by input order (stable sort):
for every date `d`, the records of date `d` appear in the output exactly as
they appear in the filtered input. -/
theorem get_all_old_tickets_sorted_spec (today days : Int)
    (tickets : List (Nat × Int)) :
    (∀ t : Nat × Int, t ∈ get_all_old_tickets_sorted today days tickets ↔
        t ∈ tickets ∧ days_since_today today t.2 > days)
  ∧ (get_all_old_tickets_sorted today days tickets).Pairwise
      (fun a b => a.2 ≤ b.2)
  ∧ (∀ d : Int,
      (get_all_old_tickets_sorted today days tickets).filter (fun t => t.2 == d)
        = (tickets.filter (fun t => decide (days_since_today today t.2 > days))).filter
            (fun t => t.2 == d)) := by
  refine ⟨?_, ?_, ?_⟩
  · intro t
    simp [get_all_old_tickets_sorted, List.mem_mergeSort, List.mem_filter]
  · have h := List.sorted_mergeSort ticket_le_trans ticket_le_total
      (tickets.filter (fun t => decide (days_since_today today t.2 > days)))
    exact h.imp (fun hab => by simpa using hab)
  · intro d
    set F := tickets.filter (fun t => decide (days_since_today today t.2 > days)) with hF
    show (F.mergeSort (fun a b => decide (a.2 ≤ b.2))).filter (fun t => t.2 == d)
        = F.filter (fun t => t.2 == d)
    have hpw : (F.filter (fun t => t.2 == d)).Pairwise
        (fun a b => decide (a.2 ≤ b.2) = true) := by
      apply List.pairwise_of_forall_mem_list
      intro a ha b hb
      have ha2 : a.2 = d := by simpa using (List.mem_filter.mp ha).2
      have hb2 : b.2 = d := by simpa using (List.mem_filter.mp hb).2
      simp [ha2, hb2]
    have hsub : List.Sublist (F.filter (fun t => t.2 == d))
        (F.mergeSort (fun a b => decide (a.2 ≤ b.2))) :=
      List.sublist_mergeSort ticket_le_trans ticket_le_total hpw
        (List.filter_sublist F)
    have hsub2 : List.Sublist (F.filter (fun t => t.2 == d))
        ((F.mergeSort (fun a b => decide (a.2 ≤ b.2))).filter (fun t => t.2 == d)) := by
      have h := hsub.filter (fun t => t.2 == d)
      simpa [List.filter_filter] using h
    have hlen : (F.filter (fun t => t.2 == d)).length
        = ((F.mergeSort (fun a b => decide (a.2 ≤ b.2))).filter
            (fun t => t.2 == d)).length :=
      (((List.mergeSort_perm F _).filter (fun t => t.2 == d)).length_eq).symm
    exact (hsub2.eq_of_length hlen).symm

theorem get_all_old_tickets_sorted_witness :
    ((7, 10) ∈ get_all_old_tickets_sorted 46 30 [(7, 10), (8, 40)] ↔
      (7, 10) ∈ [((7 : Nat), (10 : Int)), (8, 40)] ∧ days_since_today 46 10 > 30) ∧
    (get_all_old_tickets_sorted 46 30 [(7, 10), (8, 40)]).Pairwise
      (fun a b => a.2 ≤ b.2) :=
  ⟨(get_all_old_tickets_sorted_spec 46 30 [(7, 10), (8, 40)]).1 (7, 10),
   (get_all_old_tickets_sorted_spec 46 30 [(7, 10), (8, 40)]).2.1⟩

/-! ## `find_ticket._find_ticket` termination heuristic

Each page of the incremental feed carries a `start_time` watermark extracted
from the page URL.  After fetching a page, `_find_ticket` compares the current
page's watermark (`last_start_time`) with the one of the `next_page` URL and
either increments or resets `num_consecutive_small_diffs`, stopping when it
reaches `NUM_SMALL_DIFS_TO_QUIT`.  `find_ticket_walk now counter last ws`
returns how many further pages the loop fetches, given the forthcoming
watermark sequence `ws` (the model assumes the target ticket is never found,
which is the case the heuristic exists for). -/

def NUM_SEC_SMALL_DIFF : Int := 10

def NUM_SMALL_DIFS_TO_QUIT : Nat := 3

def is_time_diff_small (timestamp1 timestamp2 : Int) : Bool :=
  decide (timestamp2 - timestamp1 ≤ NUM_SEC_SMALL_DIFF)

/-- `find_ticket.is_within_24hrs`: Python computes
`(datetime.now() - datetime.fromtimestamp(t)).days in {0, 1}`, and
`timedelta.days` is the floor of the elapsed time in days. -/
def is_within_24hrs (now unix_timestamp : Int) : Bool :=
  decide (Int.fdiv (now - unix_timestamp) 86400 = 0)
    || decide (Int.fdiv (now - unix_timestamp) 86400 = 1)

def small_diff_condition (now last_start next_start : Int) : Bool :=
  is_within_24hrs now last_start && is_time_diff_small last_start next_start

def find_ticket_walk (now : Int) : Nat → Int → List Int → Nat
  | _, _, [] => 0
  | counter, last_start, next_start :: rest =>
    if small_diff_condition now last_start next_start then
      if counter + 1 = NUM_SMALL_DIFS_TO_QUIT then 0
      else 1 + find_ticket_walk now (counter + 1) next_start rest
    else 1 + find_ticket_walk now 0 next_start rest

/-- C5 (amended): the consecutive-small-diff counter is incremented exactly
when the elapsed time from the most recent watermark to now, floored to whole
days, is 0 or 1 — a 48-hour window, not 24 — and the watermark delta is at
most 10 seconds; it is reset to zero otherwise, and the walk stops as soon as
the counter reaches 3, regardless of remaining pages. -/
theorem find_ticket_heuristic_spec (now last_start next_start : Int)
    (counter : Nat) (rest : List Int) :
    (small_diff_condition now last_start next_start = true → counter + 1 = 3 →
      find_ticket_walk now counter last_start (next_start :: rest) = 0)
  ∧ (small_diff_condition now last_start next_start = true → counter + 1 ≠ 3 →
      find_ticket_walk now counter last_start (next_start :: rest)
        = 1 + find_ticket_walk now (counter + 1) next_start rest)
  ∧ (small_diff_condition now last_start next_start = false →
      find_ticket_walk now counter last_start (next_start :: rest)
        = 1 + find_ticket_walk now 0 next_start rest)
  ∧ (small_diff_condition now last_start next_start = true ↔
      ((Int.fdiv (now - last_start) 86400 = 0 ∨ Int.fdiv (now - last_start) 86400 = 1)
        ∧ next_start - last_start ≤ 10))
  ∧ (∀ w2 w3 : Int, ∀ more : List Int,
      small_diff_condition now last_start next_start = true →
      small_diff_condition now next_start w2 = true →
      small_diff_condition now w2 w3 = true →
      find_ticket_walk now 0 last_start (next_start :: w2 :: w3 :: more) = 2) := by
  refine ⟨?_, ?_, ?_, ?_, ?_⟩
  · intro hc h3
    simp [find_ticket_walk, hc, NUM_SMALL_DIFS_TO_QUIT, h3]
  · intro hc h3
    simp [find_ticket_walk, hc, NUM_SMALL_DIFS_TO_QUIT, h3]
  · intro hc
    simp [find_ticket_walk, hc]
  · simp [small_diff_condition, is_within_24hrs, is_time_diff_small,
      NUM_SEC_SMALL_DIFF]
  · intro w2 w3 more h1 h2 h3
    simp [find_ticket_walk, h1, h2, h3, NUM_SMALL_DIFS_TO_QUIT]

theorem find_ticket_heuristic_witness :
    find_ticket_walk 1000 0 500 [501, 502, 503, 504, 505] = 2 :=
  (find_ticket_heuristic_spec 1000 500 501 0 []).2.2.2.2 502 503 [504, 505]
    (by decide) (by decide) (by decide)

/-- C5 counterexample: with `now = 200000`, every watermark below lies more
than 24 hours (86400 s) in the past, so under the claim as stated the counter
would reset on every page and the walk would fetch all five remaining pages;
the code nevertheless treats them as recent (`is_within_24hrs` accepts a
floored day difference of 1, a 48-hour window), increments the counter three
times and stops after two further fetches. -/
theorem find_ticket_24h_counterexample :
    find_ticket_walk 200000 0 100000 [100005, 100010, 100015, 100020, 100025] = 2
  ∧ (∀ w ∈ [(100000 : Int), 100005, 100010, 100015, 100020, 100025],
      86400 < 200000 - w)
  ∧ is_within_24hrs 200000 100000 = true :=
  ⟨by decide, by decide, by decide⟩

/-! ## Two-phase delete-then-scrub lifecycle -/

inductive MutationPhase where
  | DELETE
  | SCRUB
deriving DecidableEq

/-- Modelled from the spec: the repository snapshot under `src/` contains only
the DELETE half of the lifecycle (`delete_old_tickets.delete_tickets`); the
SCRUB phase driver and the orchestrating caller described in §4.4 and P5 of
the specification (complete ALL DELETE batches for an id set before issuing
ANY SCRUB batch; each phase partitions the full id list into ≤100-id batches
issued sequentially, each request acknowledged before the next is sent) are
not present.  The value below is the ordered trace of (phase, batch) requests
such a run issues. -/
def run_delete_scrub_lifecycle (ids : List Nat) : List (MutationPhase × List Nat) :=
  (delete_tickets_batches ids).map (fun bulk_ids => (MutationPhase.DELETE, bulk_ids))
    ++ (delete_tickets_batches ids).map (fun bulk_ids => (MutationPhase.SCRUB, bulk_ids))

/-- C8: in a full delete-then-scrub run, no SCRUB request contains an id that
has not already appeared in an acknowledged DELETE batch earlier in the same
run; all DELETE batches precede every SCRUB batch. -/
theorem lifecycle_scrub_after_delete (ids : List Nat) (i : Nat) (b : List Nat) (x : Nat)
    (hi : (run_delete_scrub_lifecycle ids)[i]? = some (MutationPhase.SCRUB, b))
    (hx : x ∈ b) :
    ∃ j b', j < i ∧
      (run_delete_scrub_lifecycle ids)[j]? = some (MutationPhase.DELETE, b') ∧
      x ∈ b' := by
  classical
  set L := delete_tickets_batches ids with hL
  have hmaplen : (L.map (fun bulk_ids => (MutationPhase.DELETE, bulk_ids))).length = L.length := by
    simp
  have hni : L.length ≤ i := by
    by_contra hlt
    push_neg at hlt
    have : (run_delete_scrub_lifecycle ids)[i]?
        = (L.map (fun bulk_ids => (MutationPhase.DELETE, bulk_ids)))[i]? := by
      unfold run_delete_scrub_lifecycle
      rw [List.getElem?_append_left (by simpa using hlt)]
    rw [this] at hi
    rw [List.getElem?_map] at hi
    rcases hmem : L[i]? with _ | c
    · rw [hmem] at hi; simp at hi
    · rw [hmem] at hi
      simp at hi
  have hsnd : (L.map (fun bulk_ids => (MutationPhase.SCRUB, bulk_ids)))[i - L.length]?
      = some (MutationPhase.SCRUB, b) := by
    have : (run_delete_scrub_lifecycle ids)[i]?
        = (L.map (fun bulk_ids => (MutationPhase.SCRUB, bulk_ids)))[i - L.length]? := by
      unfold run_delete_scrub_lifecycle
      rw [List.getElem?_append_right (by simpa using hni)]
      simp
    rw [this] at hi
    exact hi
  have hbmem : b ∈ L := by
    rw [List.getElem?_map] at hsnd
    rcases hmem : L[i - L.length]? with _ | c
    · rw [hmem] at hsnd; simp at hsnd
    · rw [hmem] at hsnd
      simp only [Option.map_some', Option.some_inj, Prod.mk.injEq] at hsnd
      rw [← hsnd.2]
      exact List.getElem?_mem hmem
  obtain ⟨j, hj, hLj⟩ := List.mem_iff_getElem.mp hbmem
  refine ⟨j, b, by omega, ?_, hx⟩
  unfold run_delete_scrub_lifecycle
  rw [List.getElem?_append_left (by simpa using hj)]
  rw [List.getElem?_map]
  rw [List.getElem?_eq_getElem hj, hLj]
  rfl

theorem lifecycle_scrub_after_delete_witness :
    ∃ j b', j < 1 ∧
      (run_delete_scrub_lifecycle [5])[j]? = some (MutationPhase.DELETE, b') ∧
      5 ∈ b' :=
  lifecycle_scrub_after_delete [5] 1 [5] 5 (by decide) (by decide)

/-! ## Page walkers of `delete_old_tickets.py`

`get_all_ids_and_creation_dates_search` and
`get_all_ids_and_creation_dates_incremental` loop `while url is not None`,
fetching one page per iteration through `_fetch_request`.  The network is
modelled as a list of successive fetch outcomes, consumed one per request
issued.  A parsed JSON page body is modelled by `PageBody`: `results = none`
models a body without the record-collection key (`'results'` for the search
walker, `'tickets'` for the incremental one, causing `sys.exit`); for
`next_page`, `none` models a body without the `'next_page'` key (`sys.exit`),
`some none` a JSON `null` value (`url = None`, the loop ends normally), and
`some (some u)` a next-page URL.  The walkers return how the walk ended and
how many requests were issued. -/

structure RawTicket where
  id : Nat
  created_at : String
deriving DecidableEq

structure PageBody where
  results : Option (List RawTicket)
  next_page : Option (Option String)
deriving DecidableEq

inductive FetchOutcome where
  | body (b : PageBody)
  | sentinel
  | maxTries
deriving DecidableEq

inductive WalkEnd where
  | done (tickets : List (Nat × String))
  | caughtMaxTries (tickets : List (Nat × String))
  | exitMissingNextPage
  | exitBadDate
  | exitUnrecognized
  | raisedMaxTries
  | outOfResponses
deriving DecidableEq

/-- `re.match(r'^(\d\x7b4\x7d-\d\x7b2\x7d-\d\x7b2\x7d).*$', created_at)`:
returns the ten-character `YYYY-MM-DD` prefix when it matches. -/
def match_created_date (s : String) : Option String :=
  match s.toList with
  | y1 :: y2 :: y3 :: y4 :: s1 :: m1 :: m2 :: s2 :: d1 :: d2 :: _ =>
    if y1.isDigit && y2.isDigit && y3.isDigit && y4.isDigit && s1 == '-'
        && m1.isDigit && m2.isDigit && s2 == '-' && d1.isDigit && d2.isDigit then
      some (String.mk [y1, y2, y3, y4, s1, m1, m2, s2, d1, d2])
    else
      none
  | _ => none

/-- The `for ticket in result_json[...]` loop body: collects
`(id, created_date)` pairs; a ticket whose `created_at` does not match the
date pattern causes `sys.exit` (`none`). -/
def process_tickets : List RawTicket → Option (List (Nat × String))
  | [] => some []
  | t :: rest =>
    match match_created_date t.created_at with
    | some created_date =>
      (process_tickets rest).map (fun l => (t.id, created_date) :: l)
    | none => none

/-- `get_all_ids_and_creation_dates_search`: catches `MaxTriesExceededError`
and returns the tickets collected so far with a warning. -/
def walk_search : List FetchOutcome → List (Nat × String) → WalkEnd × Nat
  | [], _ => (.outOfResponses, 0)
  | .maxTries :: _, acc => (.caughtMaxTries acc, 1)
  | .sentinel :: rest, acc =>
    let r := walk_search rest acc
    (r.1, r.2 + 1)
  | .body b :: rest, acc =>
    match b.results with
    | none => (.exitUnrecognized, 1)
    | some ts =>
      match process_tickets ts with
      | none => (.exitBadDate, 1)
      | some parsed =>
        match b.next_page with
        | none => (.exitMissingNextPage, 1)
        | some none => (.done (acc ++ parsed), 1)
        | some (some _) =>
          let r := walk_search rest (acc ++ parsed)
          (r.1, r.2 + 1)

/-- `get_all_ids_and_creation_dates_incremental`: does not catch
`MaxTriesExceededError` (it propagates), and carries the committed
debug cap `if len(tickets) > 100: url = None` after following `next_page`. -/
def walk_incremental : List FetchOutcome → List (Nat × String) → WalkEnd × Nat
  | [], _ => (.outOfResponses, 0)
  | .maxTries :: _, _ => (.raisedMaxTries, 1)
  | .sentinel :: rest, acc =>
    let r := walk_incremental rest acc
    (r.1, r.2 + 1)
  | .body b :: rest, acc =>
    match b.results with
    | none => (.exitUnrecognized, 1)
    | some ts =>
      match process_tickets ts with
      | none => (.exitBadDate, 1)
      | some parsed =>
        match b.next_page with
        | none => (.exitMissingNextPage, 1)
        | some none => (.done (acc ++ parsed), 1)
        | some (some _) =>
          if (acc ++ parsed).length > 100 then (.done (acc ++ parsed), 1)
          else
            let r := walk_incremental rest (acc ++ parsed)
            (r.1, r.2 + 1)

theorem process_tickets_length :
    ∀ (ts : List RawTicket) (parsed : List (Nat × String)),
      process_tickets ts = some parsed → parsed.length = ts.length := by
  intro ts
  induction ts with
  | nil => intro parsed h; simp [process_tickets] at h; simp [← h]
  | cons t rest ih =>
    intro parsed h
    simp only [process_tickets] at h
    cases hm : match_created_date t.created_at with
    | none => rw [hm] at h; exact absurd h (by simp)
    | some created_date =>
      rw [hm] at h
      cases hp : process_tickets rest with
      | none => rw [hp] at h; exact absurd h (by simp)
      | some l =>
        rw [hp] at h
        simp only [Option.map_some', Option.some_inj] at h
        subst h
        simp [ih l hp]

theorem walk_search_cons_page (ts : List RawTicket) (parsed : List (Nat × String))
    (u : String) (rest : List FetchOutcome) (acc : List (Nat × String))
    (h : process_tickets ts = some parsed) :
    walk_search (FetchOutcome.body ⟨some ts, some (some u)⟩ :: rest) acc
      = ((walk_search rest (acc ++ parsed)).1,
         (walk_search rest (acc ++ parsed)).2 + 1) := by
  simp [walk_search, h]

theorem walk_incremental_cons_page (ts : List RawTicket) (parsed : List (Nat × String))
    (u : String) (rest : List FetchOutcome) (acc : List (Nat × String))
    (h : process_tickets ts = some parsed)
    (hcap : (acc ++ parsed).length ≤ 100) :
    walk_incremental (FetchOutcome.body ⟨some ts, some (some u)⟩ :: rest) acc
      = ((walk_incremental rest (acc ++ parsed)).1,
         (walk_incremental rest (acc ++ parsed)).2 + 1) := by
  simp [walk_incremental, h]
  intro hcontra
  exfalso
  simp only [List.length_append] at hcap
  omega

/-- Tickets collected from a list of pages, in order. -/
def collected_pages (pages : List (List RawTicket)) : List (Nat × String) :=
  (pages.map (fun p => (process_tickets p).getD [])).flatten

theorem walk_search_pages_lemma (u : String) :
    ∀ (pages : List (List RawTicket)) (acc : List (Nat × String))
      (tail : List FetchOutcome),
      (∀ p ∈ pages, ∃ q, process_tickets p = some q) →
      walk_search
          (pages.map (fun p => FetchOutcome.body ⟨some p, some (some u)⟩) ++ tail) acc
        = ((walk_search tail (acc ++ collected_pages pages)).1,
           (walk_search tail (acc ++ collected_pages pages)).2 + pages.length) := by
  intro pages
  induction pages with
  | nil => intro acc tail _; simp [collected_pages]
  | cons p rest ih =>
    intro acc tail hparse
    obtain ⟨q, hq⟩ := hparse p (List.mem_cons_self p rest)
    rw [List.map_cons, List.cons_append,
      walk_search_cons_page p q u _ acc hq,
      ih (acc ++ q) tail (fun x hx => hparse x (List.mem_cons_of_mem p hx))]
    simp [collected_pages, hq, List.append_assoc]
    omega

theorem walk_incremental_pages_lemma (u : String) :
    ∀ (pages : List (List RawTicket)) (acc : List (Nat × String))
      (tail : List FetchOutcome),
      (∀ p ∈ pages, ∃ q, process_tickets p = some q) →
      acc.length + (pages.map List.length).sum ≤ 100 →
      walk_incremental
          (pages.map (fun p => FetchOutcome.body ⟨some p, some (some u)⟩) ++ tail) acc
        = ((walk_incremental tail (acc ++ collected_pages pages)).1,
           (walk_incremental tail (acc ++ collected_pages pages)).2 + pages.length) := by
  intro pages
  induction pages with
  | nil => intro acc tail _ _; simp [collected_pages]
  | cons p rest ih =>
    intro acc tail hparse hcap
    obtain ⟨q, hq⟩ := hparse p (List.mem_cons_self p rest)
    have hqlen : q.length = p.length := process_tickets_length p q hq
    have hcap1 : (acc ++ q).length ≤ 100 := by
      simp only [List.length_append, hqlen]
      simp only [List.map_cons, List.sum_cons] at hcap
      omega
    rw [List.map_cons, List.cons_append,
      walk_incremental_cons_page p q u _ acc hq hcap1,
      ih (acc ++ q) tail (fun x hx => hparse x (List.mem_cons_of_mem p hx))
        (by
          simp only [List.length_append, hqlen]
          simp only [List.map_cons, List.sum_cons] at hcap
          omega)]
    simp [collected_pages, hq, List.append_assoc]
    omega

/-- C6 (amended): when an underlying request exhausts its retry budget, the
incremental walker propagates `MaxTriesExceededError` upward unchanged with
no recovery and no partial result; the search walker, however, catches the
error, warns, and returns the partial result collected so far. -/
theorem walker_max_tries_spec (pages : List (List RawTicket)) (u : String)
    (acc : List (Nat × String))
    (hparse : ∀ p ∈ pages, ∃ q, process_tickets p = some q)
    (hcap : acc.length + (pages.map List.length).sum ≤ 100) :
    walk_incremental
        (pages.map (fun p => FetchOutcome.body ⟨some p, some (some u)⟩)
          ++ [FetchOutcome.maxTries]) acc
      = (.raisedMaxTries, pages.length + 1)
  ∧ walk_search
        (pages.map (fun p => FetchOutcome.body ⟨some p, some (some u)⟩)
          ++ [FetchOutcome.maxTries]) acc
      = (.caughtMaxTries (acc ++ collected_pages pages), pages.length + 1) := by
  constructor
  · rw [walk_incremental_pages_lemma u pages acc [FetchOutcome.maxTries] hparse hcap]
    simp [walk_incremental, Nat.add_comm]
  · rw [walk_search_pages_lemma u pages acc [FetchOutcome.maxTries] hparse]
    simp [walk_search, Nat.add_comm]

theorem walker_max_tries_witness :
    walk_incremental
        ([[RawTicket.mk 7 "2020-01-03T04:05:06Z"]].map
            (fun p => FetchOutcome.body ⟨some p, some (some "u2")⟩)
          ++ [FetchOutcome.maxTries]) []
      = (.raisedMaxTries, 2) :=
  (walker_max_tries_spec [[RawTicket.mk 7 "2020-01-03T04:05:06Z"]] "u2" []
    (by
      intro p hp
      simp only [List.mem_singleton] at hp
      subst hp
      exact ⟨[(7, "2020-01-03")], by decide⟩)
    (by decide)).1

/-- C6 counterexample: the search walker is handed one good page followed by
a request whose retries are exhausted; instead of propagating the error
unchanged, it catches `MaxTriesExceededError` and returns the partial result
collected so far. -/
theorem walker_max_tries_counterexample :
    walk_search
        [FetchOutcome.body ⟨some [RawTicket.mk 7 "2020-01-03T04:05:06Z"], some (some "u2")⟩,
         FetchOutcome.maxTries] []
      = (.caughtMaxTries [(7, "2020-01-03")], 2) := by
  decide

/-! ## `find_visible_deleted_tickets._find_tickets`

Tickets here carry a status.  `unique_ticket_ids` (a Python set) is modelled
as the list of already-seen ids.  A `VPage` with `tickets = none` models a
body without the `'tickets'` key (the loop breaks); `next_page = none` models
a body without the `'next_page'` key — this walker `break`s and returns the
collected tickets, unlike the `sys.exit` of the `delete_old_tickets.py`
walkers (a `null` value for `next_page` is not distinguished here; the
source would loop fetching the literal URL `None`). -/

structure VTicket where
  id : Nat
  status : String
deriving DecidableEq

structure VPage where
  tickets : Option (List VTicket)
  next_page : Option String
deriving DecidableEq

/-- The inner `for ticket in data['tickets']` loop: appends each ticket whose
status is `'deleted'` and whose id has not been seen, and records its id in
the seen set; returns the grown ticket list and seen-id set. -/
def add_visible : List Nat → List VTicket → List VTicket → List VTicket × List Nat
  | unique, tix, [] => (tix, unique)
  | unique, tix, t :: rest =>
    if t.status == "deleted" && !(unique.contains t.id) then
      add_visible (t.id :: unique) (tix ++ [t]) rest
    else
      add_visible unique tix rest

/-- The `while True` page loop of `_find_tickets`, returning the collected
tickets and the number of requests issued. -/
def find_visible_walk : List VPage → List VTicket → List Nat → List VTicket × Nat
  | [], tix, _ => (tix, 0)
  | p :: rest, tix, unique =>
    match p.tickets with
    | none => (tix, 1)
    | some ts =>
      let s := add_visible unique tix ts
      match p.next_page with
      | none => (s.1, 1)
      | some _ =>
        let r := find_visible_walk rest s.1 s.2
        (r.1, r.2 + 1)

/-- C7 (amended): a parsed page body lacking the next-page field stops every
walker with no further requests issued, but only the `delete_old_tickets.py`
walkers abort fatally (`sys.exit`); `find_visible_deleted_tickets.py` treats
it as a normal end of the walk and returns the tickets collected so far. -/
theorem walker_missing_next_page_spec (pages : List (List RawTicket)) (u : String)
    (acc : List (Nat × String)) (ts : List RawTicket) (parsed : List (Nat × String))
    (extra : List FetchOutcome)
    (hparse : ∀ p ∈ pages, ∃ q, process_tickets p = some q)
    (hts : process_tickets ts = some parsed) :
    walk_search
        (pages.map (fun p => FetchOutcome.body ⟨some p, some (some u)⟩)
          ++ FetchOutcome.body ⟨some ts, none⟩ :: extra) acc
      = (.exitMissingNextPage, pages.length + 1)
  ∧ (∀ (vts : List VTicket) (tix : List VTicket) (unique : List Nat)
      (vextra : List VPage),
      find_visible_walk (VPage.mk (some vts) none :: vextra) tix unique
        = ((add_visible unique tix vts).1, 1)) := by
  constructor
  · rw [walk_search_pages_lemma u pages acc (FetchOutcome.body ⟨some ts, none⟩ :: extra) hparse]
    simp [walk_search, hts, Nat.add_comm]
  · intro vts tix unique vextra
    simp [find_visible_walk]

theorem walker_missing_next_page_witness :
    walk_search
        [FetchOutcome.body ⟨some [RawTicket.mk 3 "2019-12-31T00:00:00Z"], some (some "u2")⟩,
         FetchOutcome.body ⟨some [RawTicket.mk 4 "2020-01-01T00:00:00Z"], none⟩,
         FetchOutcome.body ⟨some [RawTicket.mk 9 "2020-01-02T00:00:00Z"], some (some "u4")⟩] []
      = (.exitMissingNextPage, 2) :=
  (walker_missing_next_page_spec [[RawTicket.mk 3 "2019-12-31T00:00:00Z"]] "u2" []
    [RawTicket.mk 4 "2020-01-01T00:00:00Z"] [(4, "2020-01-01")]
    [FetchOutcome.body ⟨some [RawTicket.mk 9 "2020-01-02T00:00:00Z"], some (some "u4")⟩]
    (by
      intro p hp
      simp only [List.mem_singleton] at hp
      subst hp
      exact ⟨[(3, "2019-12-31")], by decide⟩)
    (by decide)).1

/-- C7 counterexample: in `find_visible_deleted_tickets.py` a page body
without the `next_page` field ends the walk normally — the collected tickets
are returned, no fatal protocol error is raised, and the further available
page is never requested. -/
theorem missing_next_page_counterexample :
    find_visible_walk
        [VPage.mk (some [VTicket.mk 5 "deleted"]) none,
         VPage.mk (some [VTicket.mk 6 "deleted"]) (some "u3")] [] []
      = ([VTicket.mk 5 "deleted"], 1) := by
  decide

theorem add_visible_invariant :
    ∀ (ts : List VTicket) (unique : List Nat) (tix : List VTicket),
      (∀ t ∈ tix, t.status = "deleted") →
      (tix.map VTicket.id).Nodup →
      (∀ t ∈ tix, t.id ∈ unique) →
      (∀ t ∈ (add_visible unique tix ts).1, t.status = "deleted")
      ∧ ((add_visible unique tix ts).1.map VTicket.id).Nodup
      ∧ (∀ t ∈ (add_visible unique tix ts).1, t.id ∈ (add_visible unique tix ts).2) := by
  intro ts
  induction ts with
  | nil => intro unique tix h1 h2 h3; exact ⟨h1, h2, h3⟩
  | cons t rest ih =>
    intro unique tix h1 h2 h3
    by_cases hc : (t.status == "deleted" && !(unique.contains t.id)) = true
    · have hstep : add_visible unique tix (t :: rest)
          = add_visible (t.id :: unique) (tix ++ [t]) rest := by
        simp only [add_visible]
        rw [if_pos hc]
      rw [hstep]
      have hc' : t.status = "deleted" ∧ t.id ∉ unique := by
        simpa using hc
      have hdel : t.status = "deleted" := hc'.1
      have hnotmem : t.id ∉ unique := hc'.2
      apply ih
      · intro x hx
        rcases List.mem_append.mp hx with hx | hx
        · exact h1 x hx
        · rw [List.mem_singleton.mp hx]
          exact hdel
      · rw [List.map_append]
        refine List.Nodup.append h2 (by simp) ?_
        intro a ha hb
        simp only [List.map_cons, List.map_nil, List.mem_singleton] at hb
        subst hb
        obtain ⟨x, hxmem, hxid⟩ := List.mem_map.mp ha
        exact hnotmem (hxid ▸ h3 x hxmem)
      · intro x hx
        rcases List.mem_append.mp hx with hx | hx
        · exact List.mem_cons_of_mem _ (h3 x hx)
        · rw [List.mem_singleton.mp hx]
          exact List.mem_cons_self _ _
    · have hstep : add_visible unique tix (t :: rest)
          = add_visible unique tix rest := by
        simp only [add_visible]
        rw [if_neg hc]
      rw [hstep]
      exact ih unique tix h1 h2 h3

/-- C10: every run of `_find_tickets` returns only tickets whose status is
`'deleted'` and no two tickets with the same id, even when the feed presents
the same record on multiple pages; the invariant holds for any starting state
(including one restored from the pickle checkpoint) that satisfies it, in
particular for a fresh run starting from empty state. -/
theorem find_visible_dedup_spec :
    ∀ (pages : List VPage) (tix : List VTicket) (unique : List Nat),
      (∀ t ∈ tix, t.status = "deleted") →
      (tix.map VTicket.id).Nodup →
      (∀ t ∈ tix, t.id ∈ unique) →
      (∀ t ∈ (find_visible_walk pages tix unique).1, t.status = "deleted")
      ∧ ((find_visible_walk pages tix unique).1.map VTicket.id).Nodup := by
  intro pages
  induction pages with
  | nil => intro tix unique h1 h2 _; exact ⟨h1, h2⟩
  | cons p rest ih =>
    intro tix unique h1 h2 h3
    cases hts : p.tickets with
    | none =>
      have hstep : find_visible_walk (p :: rest) tix unique = (tix, 1) := by
        cases p with
        | mk tickets next_page =>
          simp only at hts
          subst hts
          simp [find_visible_walk]
      rw [hstep]
      exact ⟨h1, h2⟩
    | some ts =>
      obtain ⟨g1, g2, g3⟩ := add_visible_invariant ts unique tix h1 h2 h3
      cases hnp : p.next_page with
      | none =>
        have hstep : find_visible_walk (p :: rest) tix unique
            = ((add_visible unique tix ts).1, 1) := by
          cases p with
          | mk tickets next_page =>
            simp only at hts hnp
            subst hts
            subst hnp
            simp [find_visible_walk]
        rw [hstep]
        exact ⟨g1, g2⟩
      | some nexturl =>
        have hstep : find_visible_walk (p :: rest) tix unique
            = ((find_visible_walk rest (add_visible unique tix ts).1
                  (add_visible unique tix ts).2).1,
               (find_visible_walk rest (add_visible unique tix ts).1
                  (add_visible unique tix ts).2).2 + 1) := by
          cases p with
          | mk tickets next_page =>
            simp only at hts hnp
            subst hts
            subst hnp
            simp [find_visible_walk]
        rw [hstep]
        exact ih (add_visible unique tix ts).1 (add_visible unique tix ts).2 g1 g2 g3

theorem find_visible_dedup_witness :
    (∀ t ∈ (find_visible_walk
        [VPage.mk (some [VTicket.mk 5 "deleted", VTicket.mk 6 "open"]) (some "u2"),
         VPage.mk (some [VTicket.mk 5 "deleted", VTicket.mk 7 "deleted"]) none] [] []).1,
      t.status = "deleted")
    ∧ ((find_visible_walk
        [VPage.mk (some [VTicket.mk 5 "deleted", VTicket.mk 6 "open"]) (some "u2"),
         VPage.mk (some [VTicket.mk 5 "deleted", VTicket.mk 7 "deleted"]) none] [] []).1.map
          VTicket.id).Nodup :=
  find_visible_dedup_spec
    [VPage.mk (some [VTicket.mk 5 "deleted", VTicket.mk 6 "open"]) (some "u2"),
     VPage.mk (some [VTicket.mk 5 "deleted", VTicket.mk 7 "deleted"]) none] [] []
    (fun t ht => absurd ht (List.not_mem_nil t))
    List.nodup_nil
    (fun t ht => absurd ht (List.not_mem_nil t))

end Zendesk
